import Mathlib

/-!
Shallow embedding of the crisis-response orchestration core of the
`autonomous-crisis-command` backend, together with proofs checking the
natural-language specification against the code.

Sources embedded (Python, `backend/`):
* `services/risk_engine.py`  — `calculate_risk`
* `services/resolver.py`     — `resolve_conflicts`
* `services/dispatcher.py`   — `execute_dispatch`
* `services/surveillance.py` — `surveillance_monitor`
* `crisis_engine.py`         — `CrisisEngine.process_crises`
* `ai_model.py`              — `CrisisModel._normalize_type`, `_normalize_severity`
* `main.py`                  — the `/process` approval-resolution handler and the
  `pending_decisions` map
* `services/audit.py`        — `record_event` / `get_audit_log`

Python strings are Lean `String`s (ASCII behaviour of `lower`/`title`/`strip`
is modelled exactly; all strings appearing in the code are ASCII).  Python
floats are modelled as `Rat`: every arithmetic operation performed by the code
(sums of multiples of one half, comparison, `round(x, 1)`) is exact on the
values the code produces, so `Rat` is a faithful carrier.  Python dicts used
as records become structures with `Option` fields (a missing key is `none`,
`d.get(k, dflt)` is `Option.getD`); dicts used as maps become association
lists with first-match lookup, matching the unique-key discipline of `dict`.
-/

/-! ### String helpers (Python `lower`, `strip`, `title`, substring test) -/

/-- Python `str.lower()` (ASCII). -/
def lowerStr (s : String) : String :=
  String.mk (s.toList.map Char.toLower)

/-- `chPre n h`: the char list `n` is an initial segment of `h`. -/
def chPre : List Char → List Char → Bool
  | [], _ => true
  | _ :: _, [] => false
  | a :: as, b :: bs => a == b && chPre as bs

/-- `chSub n h`: Python `n in h` for strings — `n` occurs contiguously in `h`. -/
def chSub (needle : List Char) : List Char → Bool
  | [] => needle.isEmpty
  | hay@(_ :: rest) => chPre needle hay || chSub needle rest

/-- Python `needle in hay` on strings (substring containment). -/
def containsKw (needle hay : String) : Bool :=
  chSub needle.toList hay.toList

/-- Number of occurrences (at distinct start positions) of `needle` in `hay`;
used only by the spec-side scoring formula, which charges each occurrence. -/
def countOcc (needle : List Char) : List Char → Nat
  | [] => if needle.isEmpty then 1 else 0
  | hay@(_ :: rest) => (if chPre needle hay then 1 else 0) + countOcc needle rest

/-- Python `str.strip()`: drop whitespace at both ends. -/
def pyStrip (s : String) : String :=
  String.mk (((s.toList.dropWhile Char.isWhitespace).reverse.dropWhile
      Char.isWhitespace).reverse)

/-- Python `str.title()` (ASCII): the first letter of every maximal run of
letters is upper-cased, the following letters are lower-cased. -/
def pyTitle (s : String) : String :=
  String.mk ((s.toList.foldl
    (fun (acc : List Char × Bool) c =>
      if c.isAlpha then
        ((if acc.2 then c.toLower else c.toUpper) :: acc.1, true)
      else
        (c :: acc.1, false))
    ([], false)).1.reverse)

/-- Python `round(x, 1)`.  Every score the engine produces is an exact
multiple of one half, and on such values all tie-breaking conventions agree,
so round-half-up is a faithful model of Python's round-half-even. -/
def pyRound1 (q : Rat) : Rat := ((⌊q * 10 + 1/2⌋ : Int) : Rat) / 10

/-! ### Data model -/

/-- A crisis record as it flows through the pipeline: the Python dict with
keys `crisis_type`, `location`, `severity`, `risk_factor`, `risk_score`.
`none` models a missing key. -/
structure CrisisRec where
  crisis_type : Option String
  location : Option String
  severity : Option String
  risk_factor : Option String
  risk_score : Option Rat
deriving Repr, DecidableEq

/-- Sort key used by `resolve_conflicts`: `x.get("risk_score", 0)`. -/
def scoreOf (c : CrisisRec) : Rat := c.risk_score.getD 0

/-! ### `services/risk_engine.py` — `calculate_risk` -/

/-- The fixed danger-keyword list of `calculate_risk`. -/
def dangerKeywords : List String :=
  ["fuel", "chemical", "refinery", "radiation", "explosion",
   "casualties", "toxic", "nuclear"]

/-- `calculate_risk(crisis)`: lower-case the three string fields (missing keys
default to the empty string), accumulate the severity base, the crisis-type
weight and +1.5 per danger keyword contained in the risk factor, and round to
one decimal. -/
def calculate_risk (c : CrisisRec) : Rat :=
  let severity := lowerStr (c.severity.getD "")
  let crisis_type := lowerStr (c.crisis_type.getD "")
  let risk_factor := lowerStr (c.risk_factor.getD "")
  let s0 : Rat := 0
  let s1 :=
    if severity ∈ ["low"] then s0 + 1
    else if severity ∈ ["medium", "moderate"] then s0 + 3
    else if severity ∈ ["high", "major", "severe", "critical"] then s0 + 5
    else s0 + 2
  let s2 :=
    if crisis_type ∈ ["fire", "industrial accident", "gas leak"] then s1 + 1
    else if crisis_type ∈ ["earthquake"] then s1 + 2
    else s1
  let s3 := dangerKeywords.foldl
    (fun acc w => if containsKw w risk_factor then acc + 3/2 else acc) s2
  pyRound1 s3

/-- Severity base of `calculate_risk`, as a standalone table (the code
accumulates it with an `if`/`elif` chain; this names the branch values). -/
def codeSeverityBase (severity : String) : Rat :=
  if severity ∈ ["low"] then 1
  else if severity ∈ ["medium", "moderate"] then 3
  else if severity ∈ ["high", "major", "severe", "critical"] then 5
  else 2

/-- Crisis-type weight of `calculate_risk`, as a standalone table. -/
def codeTypeWeight (crisis_type : String) : Rat :=
  if crisis_type ∈ ["fire", "industrial accident", "gas leak"] then 1
  else if crisis_type ∈ ["earthquake"] then 2
  else 0

/-- Number of distinct danger keywords contained in the risk factor (the code
adds the bonus once per keyword, not once per occurrence). -/
def codeKeywordCount (risk_factor : String) : Nat :=
  (dangerKeywords.filter (fun w => containsKw w risk_factor)).length

/-- The risk-scoring formula exactly as the specification states it
(`severityBase` = Low:1, Medium:2, High:3, Critical:4; `typeWeight` =
Fire:1, Flood:0, GasLeak:1, Accident:0, Earthquake:2; +1.5 per occurrence
of each danger keyword as a case-insensitive substring of the risk factor;
rounded to one decimal).  Kept separate from `calculate_risk`, which embeds
the code, so the two can be compared. -/
def specSeverityBase (severity : String) : Rat :=
  if severity = "Low" then 1
  else if severity = "Medium" then 2
  else if severity = "High" then 3
  else if severity = "Critical" then 4
  else 1

/-- Spec-side type weight table (see `specSeverityBase`). -/
def specTypeWeight (crisis_type : String) : Rat :=
  if crisis_type = "Fire" then 1
  else if crisis_type = "Flood" then 0
  else if crisis_type = "GasLeak" then 1
  else if crisis_type = "Accident" then 0
  else if crisis_type = "Earthquake" then 2
  else 0

/-- Spec-side keyword bonus: +1.5 for each occurrence of each danger keyword
found case-insensitively in the risk factor. -/
def specKeywordBonus (risk_factor : String) : Rat :=
  3/2 * ((dangerKeywords.map
    (fun w => countOcc w.toList (lowerStr risk_factor).toList)).sum : Nat)

/-- The claimed scoring function, assembled from the spec's words. -/
def specCalculateRisk (c : CrisisRec) : Rat :=
  pyRound1 (specSeverityBase (c.severity.getD "")
    + specTypeWeight (c.crisis_type.getD "")
    + specKeywordBonus (c.risk_factor.getD ""))

/-! ### `ai_model.py` — `_normalize_type`, `_normalize_severity` -/

/-- The exact-match lookup table of `CrisisModel._normalize_type`. -/
def typeTable : List (String × String) :=
  [("fire", "Fire"), ("fire accident", "Fire"), ("fire emergency", "Fire"),
   ("flood", "Flood"), ("flooding", "Flood"),
   ("gas leak", "Gas Leak"), ("explosion", "Gas Leak"),
   ("accident", "Accident"), ("earthquake", "Earthquake")]

/-- First-match association-list lookup (Python `dict.get`). -/
def tableGet : List (String × String) → String → Option String
  | [], _ => none
  | (k, v) :: rest, key => if k = key then some v else tableGet rest key

/-- `CrisisModel._normalize_type`: strip and lower-case, then exact-match
against `typeTable`; on a miss return the title-cased (stripped, lowered)
input — `mapping.get(crisis_type, crisis_type.title())`. -/
def normalizeType (crisis_type : String) : String :=
  let t := lowerStr (pyStrip crisis_type)
  match tableGet typeTable t with
  | some v => v
  | none => pyTitle t

/-- `CrisisModel._normalize_severity`: lower-case, then ordered substring
tests with default `"Medium"`. -/
def normalizeSeverity (value : String) : String :=
  let v := lowerStr value
  if containsKw "critical" v || containsKw "very high" v then "Critical"
  else if containsKw "high" v then "High"
  else if containsKw "medium" v then "Medium"
  else if containsKw "low" v then "Low"
  else "Medium"

/-- The normalizer the claim describes: lower-case the input and test an
ordered keyword list by substring with first match winning; no match gives
the canonical Unknown type.  Spec-side definition, for comparison with
`normalizeType`. -/
def specNormalizeType (crisis_type : String) : String :=
  let t := lowerStr crisis_type
  if containsKw "fire" t then "Fire"
  else if containsKw "flood" t then "Flood"
  else if containsKw "gas" t then "GasLeak"
  else if containsKw "accident" t then "Accident"
  else if containsKw "explosion" t then "Accident"
  else if containsKw "earthquake" t then "Earthquake"
  else "Unknown"

/-! ### `services/resolver.py` — `resolve_conflicts` -/

/-- A resource pool: the Python dict mapping crisis-type names to integer
capacities (insertion-ordered association list, unique keys, first-match
lookup — exactly the observable behaviour of `dict`). -/
abbrev Pool := List (String × Int)

/-- `crisis_type in remaining_resources` + `remaining_resources[crisis_type]`:
first-match lookup. -/
def poolGet : Pool → String → Option Int
  | [], _ => none
  | (k, v) :: rest, key => if k = key then some v else poolGet rest key

/-- `remaining_resources[crisis_type] -= 1`: decrement the (unique) entry. -/
def poolDec : Pool → String → Pool
  | [], _ => []
  | (k, v) :: rest, key =>
      if k = key then (k, v - 1) :: rest else (k, v) :: poolDec rest key

/-- A decision dict `{**crisis, "status": ..., "action"/"reason": ...}`. -/
structure Decision where
  crisis : CrisisRec
  status : String
  action : Option String
  reason : Option String
deriving Repr, DecidableEq

/-- Python `f"{x}"` applied to `crisis.get("crisis_type")`, which may be
`None`. -/
def pyShowOpt : Option String → String
  | none => "None"
  | some s => s

/-- The allocated-decision dict built by `resolve_conflicts`. -/
def allocDecision (c : CrisisRec) (t : String) : Decision :=
  { crisis := c, status := "allocated",
    action := some ("Allocated resource for " ++ t), reason := none }

/-- The delayed-decision dict built by `resolve_conflicts`. -/
def delayDecision (c : CrisisRec) : Decision :=
  { crisis := c, status := "delayed", action := none,
    reason := some ("No resources available for " ++ pyShowOpt c.crisis_type) }

/-- Sort order used by `resolve_conflicts`:
`sorted(crisis_list, key=lambda x: x.get("risk_score", 0), reverse=True)`.
`riskGE a b` means `a` may be placed before `b`. -/
def riskGE (a b : CrisisRec) : Prop := scoreOf b ≤ scoreOf a

instance : DecidableRel riskGE := fun a b =>
  inferInstanceAs (Decidable (scoreOf b ≤ scoreOf a))

instance : IsTotal CrisisRec riskGE := ⟨fun a b => le_total (scoreOf b) (scoreOf a)⟩

instance : IsTrans CrisisRec riskGE := ⟨fun _ _ _ h1 h2 => le_trans h2 h1⟩

/-- Python's `sorted` with `reverse=True` is the stable descending sort;
insertion sort with `riskGE` computes exactly that order (proved below:
it is sorted for `riskGE` and preserves the input order of equal scores,
which characterises the stable sort uniquely). -/
def sortByRiskDesc (l : List CrisisRec) : List CrisisRec :=
  l.insertionSort riskGE

/-- The allocation condition of `resolve_conflicts`:
`crisis_type in remaining_resources and remaining_resources[crisis_type] > 0`
(`crisis.get("crisis_type")` may be `None`, which is never a key). -/
def hasCapacity (res : Pool) : Option String → Bool
  | none => false
  | some t =>
    match poolGet res t with
    | some v => 0 < v
    | none => false

/-- The allocation loop of `resolve_conflicts`: for each crisis in priority
order, allocate (and decrement the pool) when `hasCapacity`, else delay. -/
def allocGo : List CrisisRec → Pool → List Decision × List Decision × Pool
  | [], res => ([], [], res)
  | c :: rest, res =>
    if hasCapacity res c.crisis_type then
      let t := c.crisis_type.getD ""
      let out := allocGo rest (poolDec res t)
      (allocDecision c t :: out.1, out.2.1, out.2.2)
    else
      let out := allocGo rest res
      (out.1, delayDecision c :: out.2.1, out.2.2)

/-- The output dict of `resolve_conflicts`. -/
structure ResolveOut where
  decisions : List Decision
  tradeoffs : List Decision
  remaining_resources : Pool
deriving Repr, DecidableEq

/-- `resolve_conflicts(crisis_list, resources)`. -/
def resolve_conflicts (crisis_list : List CrisisRec) (resources : Pool) :
    ResolveOut :=
  let out := allocGo (sortByRiskDesc crisis_list) resources
  { decisions := out.1, tradeoffs := out.2.1, remaining_resources := out.2.2 }

/-! ### `services/dispatcher.py` — `execute_dispatch` -/

/-- One dispatch-log entry built by `execute_dispatch`. -/
structure DispatchEntry where
  unit_type : String
  destination : String
  status : String
  risk_score : Rat
deriving Repr, DecidableEq

/-- The return dict of `execute_dispatch`. -/
structure ExecResult where
  execution_status : String
  dispatch_log : List DispatchEntry
deriving Repr, DecidableEq

/-- The dispatch entry for one allocated decision. -/
def dispatchEntryOf (d : Decision) : DispatchEntry :=
  { unit_type := d.crisis.crisis_type.getD "Unknown",
    destination := d.crisis.location.getD "Unknown",
    status := "Dispatched",
    risk_score := d.crisis.risk_score.getD 0 }

/-- `execute_dispatch(decision_output)`.  `none` models the Python `None` /
non-dict input.  Alongside the result we return the `event_type` names of the
`record_event` calls the function performs, in order (payloads are carried
separately in the dedicated audit model below). -/
def execute_dispatch (decision_output : Option ResolveOut) :
    ExecResult × List String :=
  match decision_output with
  | none => ({ execution_status := "NO_ACTION", dispatch_log := [] }, [])
  | some dout =>
    if dout.decisions.isEmpty then
      ({ execution_status := "NO_ACTION", dispatch_log := [] },
       ["DISPATCH_SKIPPED"])
    else
      let dispatch_log := dout.decisions.map dispatchEntryOf
      ({ execution_status := "COMPLETED", dispatch_log := dispatch_log },
       dout.decisions.map (fun _ => "UNIT_DISPATCHED") ++ ["DISPATCH_COMPLETED"])

/-! ### `services/surveillance.py` — `surveillance_monitor` -/

/-- One alert dict. -/
structure Alert where
  message : String
  location : Option String
  crisis_type : Option String
  risk_score : Rat
deriving Repr, DecidableEq

/-- The alert built for one high-risk decision. -/
def alertOf (d : Decision) : Alert :=
  { message := "High Risk Ongoing",
    location := d.crisis.location,
    crisis_type := d.crisis.crisis_type,
    risk_score := d.crisis.risk_score.getD 0 }

/-- The loop of `surveillance_monitor` over `decision_output["decisions"]`:
append an alert for each decision whose `risk_score >= 4`. -/
def surveillanceGo : List Decision → List Alert
  | [] => []
  | d :: rest =>
    let risk_score := d.crisis.risk_score.getD 0
    if 4 ≤ risk_score then alertOf d :: surveillanceGo rest
    else surveillanceGo rest

/-- `surveillance_monitor(decision_output)`. -/
def surveillance_monitor (decision_output : ResolveOut) : List Alert :=
  surveillanceGo decision_output.decisions

/-! ### `crisis_engine.py` — `CrisisEngine.process_crises`

The engine first runs the external extraction model over each raw text and
parses its output (`_parse_crisis_response`, with an `Unknown/Low` fallback).
Extraction is an external collaborator (network call); the embedding
therefore starts from the list of parsed crisis dicts — everything from
step 2 (risk scoring) on is the code. -/

/-- Step 2 of `process_crises`:
`crisis_data["risk_score"] = calculate_risk(crisis_data)` for each crisis. -/
def scoreCrises (crises : List CrisisRec) : List CrisisRec :=
  crises.map (fun c => { c with risk_score := some (calculate_risk c) })

/-- The result dict of `process_crises`. -/
structure EngineResult where
  status : String
  details : Option (List Decision)
  execution_result : Option ExecResult
  alerts : Option (List Alert)
deriving Repr, DecidableEq

/-- `CrisisEngine.process_crises(crisis_texts, approved)` from the parsed
crisis list on, with the engine's resource pool as explicit state (the
constructor initialises it to Fire:2, Flood:2, Gas Leak:1, Accident:2,
Earthquake:1).  Returns the result together with the `event_type` names of
the `record_event` calls, in order. -/
def process_crises (crises0 : List CrisisRec) (approved : Bool)
    (resource_pool : Pool) : EngineResult × List String :=
  let crises := scoreCrises crises0
  let decision_output := resolve_conflicts crises resource_pool
  let high_risk_cases := decision_output.decisions.filter
    (fun d => 4 ≤ d.crisis.risk_score.getD 0)
  if ¬high_risk_cases.isEmpty ∧ approved = false then
    ({ status := "PENDING_APPROVAL", details := some high_risk_cases,
       execution_result := none, alerts := none },
     ["CRISIS_RECEIVED", "DECISION_MADE", "AUTHORIZATION_REQUIRED"])
  else
    let ed := execute_dispatch (some decision_output)
    let alerts := surveillance_monitor decision_output
    ({ status := "EXECUTED", details := none,
       execution_result := some ed.1, alerts := some alerts },
     ["CRISIS_RECEIVED", "DECISION_MADE"] ++ ed.2 ++ ["EXECUTION_COMPLETED"])

/-- The engine's default resource pool (`CrisisEngine.__init__`). -/
def defaultResourcePool : Pool :=
  [("Fire", 2), ("Flood", 2), ("Gas Leak", 1), ("Accident", 2),
   ("Earthquake", 1)]

/-! ### `main.py` — the pending-approval map and the `/process` handler

`main.py` keeps `pending_decisions`, a dict from crisis id to
`{"decision_output": ..., "timestamp": ...}`, guarded by
`pending_decisions_lock`.  The `/process` handler acquires that lock and,
while holding it, performs the whole sequence: existence check, branch on the
gathered digit, dispatch (for digit `"6"`), and deletion of the entry.
Because every access to the map and the dispatch decision happen inside the
one critical section, any concurrent execution of resolution calls is
equivalent to running them atomically in some sequential order; the model
below makes each call one atomic step and sequences steps. -/

/-- One `pending_decisions` entry.  `timestamp` is the creation time in
seconds (the code stores `datetime.now().isoformat()`; an abstract clock
value carries the same information for elapsed-time questions). -/
structure PendingEntry where
  decision_output : ResolveOut
  timestamp : Nat
deriving Repr, DecidableEq

/-- The `pending_decisions` dict. -/
abbrev PendingMap := List (String × PendingEntry)

/-- Dict lookup (`crisis_id in pending_decisions` / indexing). -/
def mapLookup : PendingMap → String → Option PendingEntry
  | [], _ => none
  | (k, v) :: rest, key => if k = key then some v else mapLookup rest key

/-- `del pending_decisions[crisis_id]`. -/
def mapDelete : PendingMap → String → PendingMap
  | [], _ => []
  | (k, v) :: rest, key =>
      if k = key then rest else (k, v) :: mapDelete rest key

/-- What one `/process` call produces: the spoken response and, when the
officer pressed 6 on a live entry, the `execute_dispatch` result. -/
structure ProcOut where
  say : String
  dispatched : Option ExecResult
deriving Repr, DecidableEq

/-- The `/process` response for an id that is not in the map. -/
def expiredOut : ProcOut :=
  { say := "Crisis expired.", dispatched := none }

/-- The `/process` response after an approved dispatch of `e`. -/
def approvedOut (e : PendingEntry) : ProcOut :=
  { say := "Approved. Units dispatched and emergency teams notified.",
    dispatched := some (execute_dispatch (some e.decision_output)).1 }

/-- The `/process` response after a rejection. -/
def rejectedOut : ProcOut :=
  { say := "Rejected.", dispatched := none }

/-- The `/process` handler, as one atomic step (the code holds
`pending_decisions_lock` for the whole body): if `crisis_id` is absent,
answer "Crisis expired."; otherwise branch on the digit — `"6"` dispatches
via `execute_dispatch`, anything else records a rejection — and in both
branches delete the entry.  `now` is the current clock; the handler never
reads it, nor the stored `timestamp`: there is no elapsed-time check. -/
def processApproval (m : PendingMap) (crisis_id : String)
    (digit : Option String) (now : Nat) : ProcOut × PendingMap :=
  match mapLookup m crisis_id with
  | none => (expiredOut, m)
  | some entry =>
    if digit = some "6" then
      (approvedOut entry, mapDelete m crisis_id)
    else
      (rejectedOut, mapDelete m crisis_id)

/-- N resolution calls for the same id, run in sequence (the lock serialises
any concurrent schedule into such a sequence). -/
def processMany (m : PendingMap) (crisis_id : String) :
    List (Option String) → Nat → List ProcOut × PendingMap
  | [], _ => ([], m)
  | d :: ds, now =>
    let step := processApproval m crisis_id d now
    let rest := processMany step.2 crisis_id ds now
    (step.1 :: rest.1, rest.2)

/-! ### `services/audit.py` — `record_event` / `get_audit_log`

Python objects are aliased by reference: `record_event` stores the caller's
payload dict by reference, and `get_audit_log` returns `entry.copy()` for
each entry — a new top-level record whose `data` field still points at the
same payload dict.  The model makes payload identity explicit: payload dicts
live in a heap addressed by `Nat`, and an event record holds the address of
its payload. -/

namespace AuditModel

/-- A payload dict. -/
abbrev Payload := List (String × String)

/-- One audit record `{"timestamp": ..., "event_type": ..., "data": ...}`;
`data` is the address of the shared payload object. -/
structure EventRec where
  timestamp : String
  event_type : String
  data : Nat
deriving Repr, DecidableEq

/-- The audit module's state: the payload heap plus the global `audit_log`. -/
structure AuditState where
  heap : List Payload
  log : List EventRec
deriving Repr, DecidableEq

/-- `d[k] = v` on a payload dict: overwrite the first binding or append. -/
def setKey : Payload → String → String → Payload
  | [], k, v => [(k, v)]
  | (k0, v0) :: rest, k, v =>
      if k0 = k then (k0, v) :: rest else (k0, v0) :: setKey rest k v

/-- `record_event(event_type, data)`: inside the lock, append one fresh
record referencing the caller's payload object. -/
def record_event (st : AuditState) (ts event_type : String) (dataAddr : Nat) :
    AuditState :=
  { st with
    log := st.log ++ [{ timestamp := ts, event_type := event_type,
                        data := dataAddr }] }

/-- `get_audit_log()`: `[entry.copy() for entry in audit_log]` — a new list
of new top-level records; each copy's `data` field is the same payload
address (a dict `.copy()` is shallow). -/
def get_audit_log (st : AuditState) : List EventRec :=
  st.log.map (fun e =>
    { timestamp := e.timestamp, event_type := e.event_type, data := e.data })

/-- Mutating a payload object in place through any reference to it
(`payload[k] = v`). -/
def writePayload (st : AuditState) (addr : Nat) (k v : String) : AuditState :=
  { st with heap := st.heap.set addr (setKey (st.heap.getD addr []) k v) }

/-- The payload contents an audit record currently shows. -/
def readPayload (st : AuditState) (addr : Nat) : Payload :=
  st.heap.getD addr []

/-- The internal log with payloads dereferenced — what history actually
says. -/
def renderLog (st : AuditState) : List (String × Payload) :=
  st.log.map (fun e => (e.event_type, readPayload st e.data))

/-- The operations the audit module's state can undergo. -/
inductive Op where
  | recEv (ts event_type : String) (addr : Nat)
  | write (addr : Nat) (k v : String)
deriving Repr, DecidableEq

/-- Apply one operation. -/
def applyOp (st : AuditState) : Op → AuditState
  | Op.recEv ts ty addr => record_event st ts ty addr
  | Op.write addr k v => writePayload st addr k v

/-- Apply a sequence of operations. -/
def applyOps (st : AuditState) (ops : List Op) : AuditState :=
  ops.foldl applyOp st

end AuditModel

/-! ### Concrete instances used by the checks below -/

/-- Scenario A's crisis: a Fire at Sector 12, high severity, empty risk
factor. -/
def fireHighCrisis : CrisisRec :=
  { crisis_type := some "Fire", location := some "Sector 12",
    severity := some "High", risk_factor := some "", risk_score := none }

/-- A crisis whose severity string matches none of the recognised severity
lists. -/
def oddSevCrisis : CrisisRec :=
  { crisis_type := none, location := none, severity := some "bizarre",
    risk_factor := none, risk_score := none }

/-- The same crisis with severity Low. -/
def lowSevCrisis : CrisisRec :=
  { crisis_type := none, location := none, severity := some "Low",
    risk_factor := none, risk_score := none }

/-- Scenario C: a Fire crisis already scored 5.0. -/
def fireFive : CrisisRec :=
  { crisis_type := some "Fire", location := some "north", severity := none,
    risk_factor := none, risk_score := some 5 }

/-- Scenario C: a Fire crisis already scored 3.0. -/
def fireThree : CrisisRec :=
  { crisis_type := some "Fire", location := some "south", severity := none,
    risk_factor := none, risk_score := some 3 }

/-- A decision output with one allocated high-risk Fire decision, as stored
for a pending approval. -/
def sampleResolveOut : ResolveOut :=
  { decisions := [allocDecision fireFive "Fire"],
    tradeoffs := [], remaining_resources := [("Fire", 0)] }

/-- A pending entry created at clock 0 holding `sampleResolveOut`. -/
def sampleEntry : PendingEntry :=
  { decision_output := sampleResolveOut, timestamp := 0 }

/-- A pending map holding `sampleEntry` under id "abc" next to an unrelated
entry. -/
def sampleMap : PendingMap :=
  [("abc", sampleEntry),
   ("other", { decision_output := { decisions := [], tradeoffs := [],
                                    remaining_resources := [] },
               timestamp := 5 })]

/-- An audit state holding one record whose payload `{"value": "1"}` lives at
heap address 0. -/
def sampleAuditState : AuditModel.AuditState :=
  { heap := [[("value", "1")]],
    log := [{ timestamp := "t0", event_type := "ORIGINAL_EVENT", data := 0 }] }

/-! ## Helper lemmas -/

/-- The keyword loop of `calculate_risk` adds `3/2` once per keyword
contained in the risk factor. -/
theorem foldl_keyword_bonus (rf : String) :
    ∀ (ws : List String) (a : Rat),
      ws.foldl (fun acc w => if containsKw w rf then acc + 3/2 else acc) a
        = a + 3/2 * ((ws.filter (fun w => containsKw w rf)).length : Rat) := by
  intro ws
  induction ws with
  | nil => intro a; simp
  | cons w ws ih =>
    intro a
    by_cases h : containsKw w rf
    · simp only [List.foldl_cons, List.filter_cons, h, if_pos, List.length_cons, ih]
      push_cast
      ring
    · simp only [List.foldl_cons, List.filter_cons, h, Bool.false_eq_true,
        ite_false, ih]

/-- `calculate_risk` decomposes into severity base + type weight + 1.5 per
keyword present, rounded. -/
theorem calc_risk_decomp (c : CrisisRec) :
    calculate_risk c =
      pyRound1 (codeSeverityBase (lowerStr (c.severity.getD ""))
        + codeTypeWeight (lowerStr (c.crisis_type.getD ""))
        + 3/2 * (codeKeywordCount (lowerStr (c.risk_factor.getD "")) : Rat)) := by
  simp only [calculate_risk, codeSeverityBase, codeTypeWeight, codeKeywordCount]
  rw [foldl_keyword_bonus]
  congr 1
  split_ifs <;> ring

/-- Evaluation: the Scenario A crisis (Fire, High, empty risk factor) scores
6.0 under the code. -/
theorem calcRisk_fireHigh : calculate_risk fireHighCrisis = 6 := by
  have h1 : lowerStr "High" = "high" := by decide
  have h2 : lowerStr "Fire" = "fire" := by decide
  have h3 : lowerStr "" = "" := by decide
  have h4 : codeKeywordCount "" = 0 := by decide
  rw [calc_risk_decomp]
  simp [fireHighCrisis, h1, h2, h3, h4, codeSeverityBase, codeTypeWeight]
  norm_num [pyRound1]

/-! ## C3 — risk-score formula -/

/-- C3 counterexample: the claim's formula (severityBase High = 3, Fire
weight 1) gives 4.0 on the Scenario A crisis, but `calculate_risk` gives 6.0
(the code's bases are 1/3/5 with fallback 2, not 1/2/3/4), so the claimed
formula and the code disagree at this input. -/
theorem risk_formula_cex :
    calculate_risk fireHighCrisis = 6 ∧
      specCalculateRisk fireHighCrisis = 4 ∧ (6 : Rat) ≠ 4 := by
  refine ⟨calcRisk_fireHigh, ?_, by norm_num⟩
  have hsum : (dangerKeywords.map
      (fun w => countOcc w.toList (lowerStr "").toList)).sum = 0 := by decide
  have h5 : specKeywordBonus "" = 0 := by
    rw [specKeywordBonus, hsum]
    norm_num
  simp [specCalculateRisk, fireHighCrisis, specSeverityBase, specTypeWeight, h5]
  norm_num [pyRound1]

/-- C3 amended: the computed risk score equals
`severityBase'(severity) + typeWeight'(type) + 1.5 · #{danger keywords
contained in the risk factor}`, rounded to one decimal place, where the
tables (applied to the lower-cased fields) are `severityBase'` = {low: 1,
medium/moderate: 3, high/major/severe/critical: 5, anything else: 2} and
`typeWeight'` = {fire: 1, "industrial accident": 1, "gas leak": 1,
earthquake: 2, else 0}, and each keyword counts at most once regardless of
how often it occurs; in particular a Fire crisis with High severity and
empty risk factor scores 6.0. -/
theorem risk_score_decomposition :
    (∀ c : CrisisRec,
      calculate_risk c =
        pyRound1 (codeSeverityBase (lowerStr (c.severity.getD ""))
          + codeTypeWeight (lowerStr (c.crisis_type.getD ""))
          + 3/2 * (codeKeywordCount (lowerStr (c.risk_factor.getD "")) : Rat)))
    ∧ calculate_risk fireHighCrisis = 6 :=
  ⟨calc_risk_decomp, calcRisk_fireHigh⟩

/-! ## C8 — totality and the unknown-severity default -/

/-- C8 counterexample: an unrecognised severity contributes base 2.0, which
is not the base Low contributes (1.0) — two crises identical except for
severity ("bizarre" vs "Low") score 2.0 and 1.0. -/
theorem severity_default_cex :
    calculate_risk oddSevCrisis = 2 ∧ calculate_risk lowSevCrisis = 1 ∧
      (2 : Rat) ≠ 1 := by
  have h1 : lowerStr "bizarre" = "bizarre" := by decide
  have h2 : lowerStr "Low" = "low" := by decide
  have h3 : lowerStr "" = "" := by decide
  have h4 : codeKeywordCount "" = 0 := by decide
  refine ⟨?_, ?_, by norm_num⟩
  · rw [calc_risk_decomp]
    simp [oddSevCrisis, h1, h3, h4, codeSeverityBase, codeTypeWeight]
    norm_num [pyRound1]
  · rw [calc_risk_decomp]
    simp [lowSevCrisis, h2, h3, h4, codeSeverityBase, codeTypeWeight]
    norm_num [pyRound1]

/-- C8 amended: `calculate_risk` is total — it is defined (in this model, as
a total function mirroring the code's branch structure, which performs no
raising operation on string inputs) for every record, including records with
missing fields, and always returns at least 1.0; a severity matching none of
the recognised lists contributes base 2.0, which lies strictly between Low's
base (1.0) and Medium's base (3.0) rather than equalling the lowest. -/
theorem risk_total_default_base :
    (∀ c : CrisisRec,
      lowerStr (c.severity.getD "") ∉
          (["low", "medium", "moderate", "high", "major", "severe",
            "critical"] : List String) →
      calculate_risk c =
        pyRound1 (2 + codeTypeWeight (lowerStr (c.crisis_type.getD ""))
          + 3/2 * (codeKeywordCount (lowerStr (c.risk_factor.getD "")) : Rat)))
    ∧ (∀ c : CrisisRec, 1 ≤ calculate_risk c) := by
  constructor
  · intro c h
    rw [calc_risk_decomp]
    congr 2
    simp only [List.mem_cons, not_or] at h
    simp only [codeSeverityBase, List.mem_cons, List.mem_singleton]
    rw [if_neg (by tauto), if_neg (by tauto), if_neg (by tauto)]
  · intro c
    rw [calc_risk_decomp]
    have hb : (1 : Rat) ≤ codeSeverityBase (lowerStr (c.severity.getD "")) := by
      simp only [codeSeverityBase]
      split_ifs <;> norm_num
    have ht : (0 : Rat) ≤ codeTypeWeight (lowerStr (c.crisis_type.getD "")) := by
      simp only [codeTypeWeight]
      split_ifs <;> norm_num
    have hk : (0 : Rat) ≤
        3/2 * (codeKeywordCount (lowerStr (c.risk_factor.getD "")) : Rat) := by
      positivity
    have h2 : (10 : Int) ≤
        ⌊(codeSeverityBase (lowerStr (c.severity.getD ""))
          + codeTypeWeight (lowerStr (c.crisis_type.getD ""))
          + 3/2 * (codeKeywordCount (lowerStr (c.risk_factor.getD "")) : Rat))
          * 10 + 1/2⌋ := by
      rw [Int.le_floor]
      push_cast
      linarith
    simp only [pyRound1]
    rw [le_div_iff₀ (by norm_num : (0:Rat) < 10)]
    calc (1 : Rat) * 10 = ((10 : Int) : Rat) := by norm_num
    _ ≤ _ := by exact_mod_cast h2

/-- C8 witness: the amended theorem applied at `oddSevCrisis`. -/
theorem risk_total_default_base_witness :
    calculate_risk oddSevCrisis =
      pyRound1 (2 + codeTypeWeight (lowerStr (oddSevCrisis.crisis_type.getD ""))
        + 3/2 * (codeKeywordCount (lowerStr (oddSevCrisis.risk_factor.getD "")) : Rat))
    ∧ 1 ≤ calculate_risk oddSevCrisis :=
  ⟨risk_total_default_base.1 oddSevCrisis (by decide),
   risk_total_default_base.2 oddSevCrisis⟩

/-! ## C4 — allocation conservation -/

/-- Every crisis processed by the allocation loop lands in exactly one of
the two output lists. -/
theorem allocGo_length : ∀ (l : List CrisisRec) (res : Pool),
    (allocGo l res).1.length + (allocGo l res).2.1.length = l.length := by
  intro l
  induction l with
  | nil =>
    intro res
    simp [allocGo]
  | cons c rest ih =>
    intro res
    by_cases h : hasCapacity res c.crisis_type
    · have heq : allocGo (c :: rest) res =
          (allocDecision c (c.crisis_type.getD "")
              :: (allocGo rest (poolDec res (c.crisis_type.getD ""))).1,
            (allocGo rest (poolDec res (c.crisis_type.getD ""))).2.1,
            (allocGo rest (poolDec res (c.crisis_type.getD ""))).2.2) := by
        simp [allocGo, h]
      rw [heq]
      simp only [List.length_cons, ← ih (poolDec res (c.crisis_type.getD ""))]
      omega
    · have heq : allocGo (c :: rest) res =
          ((allocGo rest res).1, delayDecision c :: (allocGo rest res).2.1,
            (allocGo rest res).2.2) := by
        simp [allocGo, h]
      rw [heq]
      simp only [List.length_cons, ← ih res]
      omega

/-- If `hasCapacity` holds, the looked-up entry is positive. -/
theorem hasCapacity_pos (res : Pool) (o : Option String)
    (h : hasCapacity res o = true) :
    ∃ t v, o = some t ∧ poolGet res t = some v ∧ 0 < v := by
  cases o with
  | none => simp [hasCapacity] at h
  | some t =>
    cases hg : poolGet res t with
    | none =>
      rw [hasCapacity, hg] at h
      simp at h
    | some v =>
      rw [hasCapacity, hg] at h
      simp only [decide_eq_true_eq] at h
      exact ⟨t, v, rfl, hg, h⟩

/-- Decrementing an entry the lookup saw as positive keeps every pool entry
non-negative. -/
theorem poolDec_nonneg : ∀ (res : Pool) (t : String) (v : Int),
    poolGet res t = some v → 0 < v → (∀ kv ∈ res, 0 ≤ kv.2) →
    ∀ kv ∈ poolDec res t, 0 ≤ kv.2 := by
  intro res
  induction res with
  | nil =>
    intro t v hg
    simp [poolGet] at hg
  | cons kv0 rest ih =>
    obtain ⟨k0, v0⟩ := kv0
    intro t v hg hv hall kv hkv
    by_cases hk : k0 = t
    · simp only [poolGet, hk, if_pos] at hg
      simp [poolDec, hk] at hkv
      rcases hkv with h | h
      · obtain rfl := h
        have hv0 : v0 = v := by
          exact Option.some.inj hg
        simp only []
        omega
      · exact hall kv (List.mem_cons_of_mem _ h)
    · simp [poolGet, hk] at hg
      simp [poolDec, hk] at hkv
      rcases hkv with h | h
      · exact hall kv (h ▸ List.mem_cons_self _ _)
      · exact ih t v hg hv (fun x hx => hall x (List.mem_cons_of_mem _ hx)) kv h

/-- The allocation loop preserves pool non-negativity. -/
theorem allocGo_nonneg : ∀ (l : List CrisisRec) (res : Pool),
    (∀ kv ∈ res, 0 ≤ kv.2) → ∀ kv ∈ (allocGo l res).2.2, 0 ≤ kv.2 := by
  intro l
  induction l with
  | nil =>
    intro res h
    simpa [allocGo] using h
  | cons c rest ih =>
    intro res h
    by_cases hc : hasCapacity res c.crisis_type
    · obtain ⟨t, v, ht, hg, hv⟩ := hasCapacity_pos res c.crisis_type hc
      have hgd : c.crisis_type.getD "" = t := by
        rw [ht]
        rfl
      have heq : (allocGo (c :: rest) res).2.2
          = (allocGo rest (poolDec res t)).2.2 := by
        simp [allocGo, hc, hgd]
      rw [heq]
      exact ih (poolDec res t) (poolDec_nonneg res t v hg hv h)
    · have heq : (allocGo (c :: rest) res).2.2 = (allocGo rest res).2.2 := by
        simp [allocGo, hc]
      rw [heq]
      exact ih res h

/-- C4: for every crisis list and every (non-negative, as resource pools
are by definition) resource pool, `resolve_conflicts` returns decisions and
tradeoffs with `len(decisions) + len(tradeoffs) = len(input)`, and no entry
of the remaining resource pool is negative. -/
theorem allocation_conservation (crisis_list : List CrisisRec)
    (resources : Pool) (hres : ∀ kv ∈ resources, 0 ≤ kv.2) :
    (resolve_conflicts crisis_list resources).decisions.length
        + (resolve_conflicts crisis_list resources).tradeoffs.length
        = crisis_list.length
    ∧ ∀ kv ∈ (resolve_conflicts crisis_list resources).remaining_resources,
        0 ≤ kv.2 := by
  constructor
  · have hlen : (sortByRiskDesc crisis_list).length = crisis_list.length :=
      (List.perm_insertionSort riskGE crisis_list).length_eq
    simpa [resolve_conflicts, hlen] using
      allocGo_length (sortByRiskDesc crisis_list) resources
  · simpa [resolve_conflicts] using
      allocGo_nonneg (sortByRiskDesc crisis_list) resources hres

/-- C4 witness: the conservation theorem applied to one concrete crisis
against the engine's default pool. -/
theorem allocation_conservation_witness :
    (resolve_conflicts [fireHighCrisis] defaultResourcePool).decisions.length
        + (resolve_conflicts [fireHighCrisis] defaultResourcePool).tradeoffs.length
        = 1
    ∧ ∀ kv ∈ (resolve_conflicts [fireHighCrisis]
          defaultResourcePool).remaining_resources, 0 ≤ kv.2 :=
  allocation_conservation [fireHighCrisis] defaultResourcePool (by decide)

/-! ## C6 — allocation order: descending risk, stable on ties -/

/-- Inserting `a` into a list leaves the sublist of any fixed score `s`
unchanged, except that when `a` itself has score `s` it lands exactly at
that sublist's front: equal-score elements already present all let `a` pass
in front of none of them (`riskGE` holds on ties), and elements `a` is
inserted behind have strictly larger score. -/
theorem filter_orderedInsert_score (s : Rat) (a : CrisisRec) :
    ∀ l : List CrisisRec,
      (List.orderedInsert riskGE a l).filter (fun c => decide (scoreOf c = s))
        = if scoreOf a = s
          then a :: l.filter (fun c => decide (scoreOf c = s))
          else l.filter (fun c => decide (scoreOf c = s)) := by
  intro l
  induction l with
  | nil =>
    by_cases hs : scoreOf a = s <;>
      simp [List.orderedInsert, List.filter_cons, hs]
  | cons b l ih =>
    by_cases hr : riskGE a b
    · rw [List.orderedInsert, if_pos hr]
      by_cases hs : scoreOf a = s <;>
        simp [List.filter_cons, hs]
    · rw [List.orderedInsert, if_neg hr]
      have hba : scoreOf a < scoreOf b := by
        have := lt_of_not_le hr
        exact this
      by_cases hs : scoreOf a = s
      · have hbs : ¬(scoreOf b = s) := by
          intro hb
          rw [hs] at hba
          rw [hb] at hba
          exact lt_irrefl s hba
        simp [List.filter_cons, hbs, ih, hs]
      · by_cases hbs : scoreOf b = s <;>
          simp [List.filter_cons, hbs, ih, hs]

/-- Stability of the processing order: for every score value, the crises of
that score appear in the sorted order exactly as they appear in the input. -/
theorem filter_sortByRiskDesc_score (s : Rat) :
    ∀ l : List CrisisRec,
      (sortByRiskDesc l).filter (fun c => decide (scoreOf c = s))
        = l.filter (fun c => decide (scoreOf c = s)) := by
  intro l
  induction l with
  | nil => rfl
  | cons a l ih =>
    have : sortByRiskDesc (a :: l)
        = List.orderedInsert riskGE a (sortByRiskDesc l) := rfl
    rw [this, filter_orderedInsert_score]
    by_cases hs : scoreOf a = s <;>
      simp [List.filter_cons, hs, ih]

/-- C6: allocation processes crises in descending `riskScore` order
(`riskGE` means "score at least as large"), equal scores keep their input
order (the score-`s` subsequence of the processing order equals that of the
input, for every `s`), and on Scenario C — two Fire crises scored 5.0 and
3.0 against pool Fire:1 — the 5.0 crisis is allocated and the 3.0 crisis is
delayed.  The processing order, and hence the whole output, is a function of
the input (determinism). -/
theorem allocation_order_stable_desc :
    (∀ l : List CrisisRec, (sortByRiskDesc l).Sorted riskGE)
    ∧ (∀ (l : List CrisisRec) (s : Rat),
        (sortByRiskDesc l).filter (fun c => decide (scoreOf c = s))
          = l.filter (fun c => decide (scoreOf c = s)))
    ∧ resolve_conflicts [fireFive, fireThree] [("Fire", 1)]
        = { decisions := [allocDecision fireFive "Fire"],
            tradeoffs := [delayDecision fireThree],
            remaining_resources := [("Fire", 0)] } := by
  refine ⟨fun l => List.sorted_insertionSort riskGE l,
    fun l s => filter_sortByRiskDesc_score s l, ?_⟩
  decide

/-! ## C7 — type normalization -/

/-- C7 counterexample: on input "wildfire" the claimed normalizer (ordered
substring keywords, miss gives Unknown) produces "Fire", but the code's
exact-match table misses and returns the title-cased input "Wildfire" —
neither "Fire" nor "Unknown". -/
theorem type_normalization_cex :
    normalizeType "wildfire" = "Wildfire"
    ∧ specNormalizeType "wildfire" = "Fire"
    ∧ ("Wildfire" : String) ≠ "Unknown"
    ∧ ("Wildfire" : String) ≠ "Fire" := by
  decide

/-- C7 amended: `_normalize_type` strips and lower-cases its input and then
looks it up by exact match in the table {fire, fire accident,
fire emergency → Fire; flood, flooding → Flood; gas leak, explosion →
Gas Leak; accident → Accident; earthquake → Earthquake}; an input matching
no key yields the title-cased stripped-lowered input, not Unknown.  The
evaluations below exercise every table key, case-insensitivity and
stripping, and two misses (no substring matching, no Unknown default). -/
theorem type_normalization_table :
    normalizeType "fire" = "Fire"
    ∧ normalizeType "  FIRE " = "Fire"
    ∧ normalizeType "fire accident" = "Fire"
    ∧ normalizeType "fire emergency" = "Fire"
    ∧ normalizeType "flood" = "Flood"
    ∧ normalizeType "Flooding" = "Flood"
    ∧ normalizeType "gas leak" = "Gas Leak"
    ∧ normalizeType "Explosion" = "Gas Leak"
    ∧ normalizeType "accident" = "Accident"
    ∧ normalizeType "earthquake" = "Earthquake"
    ∧ normalizeType "wildfire" = "Wildfire"
    ∧ normalizeType "unidentified anomaly" = "Unidentified Anomaly"
    ∧ normalizeType "" = "" := by
  decide

/-! ## C5 — empty decision list does not short-circuit to NoResources -/

/-- Evaluation: scoring the Scenario A crisis stores 6.0 on the record. -/
theorem scoreCrises_fireHigh :
    scoreCrises [fireHighCrisis]
      = [{ fireHighCrisis with risk_score := some 6 }] := by
  simp [scoreCrises, calcRisk_fireHigh]

/-- C5 counterexample: one Fire crisis against pool Fire:0 produces an empty
decision list and one Delayed tradeoff citing Fire, but the engine's
top-level status is "EXECUTED" (with execution_status "NO_ACTION" inside) —
there is no NoResources short-circuit anywhere in `process_crises`. -/
theorem no_resources_cex :
    (process_crises [fireHighCrisis] false [("Fire", 0)]).1.status = "EXECUTED"
    ∧ (process_crises [fireHighCrisis] false [("Fire", 0)]).1.execution_result
        = some { execution_status := "NO_ACTION", dispatch_log := [] }
    ∧ (resolve_conflicts (scoreCrises [fireHighCrisis])
          [("Fire", 0)]).tradeoffs.map (fun d => d.reason)
        = [some "No resources available for Fire"] := by
  refine ⟨?_, ?_, ?_⟩
  · simp only [process_crises, scoreCrises_fireHigh]
    decide
  · simp only [process_crises, scoreCrises_fireHigh]
    decide
  · simp only [scoreCrises_fireHigh]
    decide

/-- C5 amended: when the post-allocation decision list is empty the engine
does not return a NoResources status; it proceeds to dispatch, which skips
(execution_status "NO_ACTION", empty dispatch log), and the top-level result
has status "EXECUTED" with no alerts. -/
theorem empty_decisions_executed_no_action (crises : List CrisisRec)
    (approved : Bool) (pool : Pool)
    (h : (resolve_conflicts (scoreCrises crises) pool).decisions = []) :
    (process_crises crises approved pool).1.status = "EXECUTED"
    ∧ (process_crises crises approved pool).1.execution_result
        = some { execution_status := "NO_ACTION", dispatch_log := [] }
    ∧ (process_crises crises approved pool).1.alerts = some [] := by
  simp [process_crises, execute_dispatch, surveillance_monitor, surveillanceGo, h]

/-- C5 witness: the amended theorem applied at a concrete input with an
empty decision list. -/
theorem empty_decisions_executed_no_action_witness :
    (process_crises [] false []).1.status = "EXECUTED"
    ∧ (process_crises [] false []).1.execution_result
        = some { execution_status := "NO_ACTION", dispatch_log := [] }
    ∧ (process_crises [] false []).1.alerts = some [] :=
  empty_decisions_executed_no_action [] false [] (by decide)

/-! ## C10 — surveillance alerts -/

/-- C10: the surveillance loop returns exactly the alerts of the allocated
decisions whose risk score is at least 4, in decision-list order (one alert
each, none for lower scores, and the tradeoff list is never consulted), and
every "EXECUTED" orchestration result carries exactly the surveillance
alerts of its decision output. -/
theorem surveillance_alerts :
    (∀ ds : List Decision,
       surveillanceGo ds
         = (ds.filter (fun d => decide (4 ≤ d.crisis.risk_score.getD 0))).map
             alertOf)
    ∧ (∀ (crises : List CrisisRec) (approved : Bool) (pool : Pool),
        (process_crises crises approved pool).1.status = "EXECUTED" →
        (process_crises crises approved pool).1.alerts
          = some (surveillance_monitor
              (resolve_conflicts (scoreCrises crises) pool))) := by
  constructor
  · intro ds
    induction ds with
    | nil => rfl
    | cons d rest ih =>
      by_cases hd : (4 : Rat) ≤ d.crisis.risk_score.getD 0
      · simp [surveillanceGo, List.filter_cons, hd, ih]
      · simp [surveillanceGo, List.filter_cons, hd, ih]
  · intro crises approved pool
    simp only [process_crises]
    split
    · intro hst
      simp at hst
    · intro _
      rfl

/-- C10 witness: the alert equation at a concrete decision list, and the
EXECUTED-result conjunct applied at a concrete orchestration call. -/
theorem surveillance_alerts_witness :
    surveillanceGo [allocDecision fireFive "Fire"]
        = ([allocDecision fireFive "Fire"].filter
            (fun d => decide (4 ≤ d.crisis.risk_score.getD 0))).map alertOf
    ∧ (process_crises [] false []).1.status = "EXECUTED"
    ∧ (process_crises [] false []).1.alerts
        = some (surveillance_monitor (resolve_conflicts (scoreCrises []) [])) :=
  ⟨surveillance_alerts.1 [allocDecision fireFive "Fire"], by decide,
   surveillance_alerts.2 [] false [] (by decide)⟩

/-! ## C1 — exactly-once dispatch under concurrent resolution -/

/-- A key that is not among a map's keys looks up to nothing. -/
theorem mapLookup_eq_none_of_not_mem : ∀ (m : PendingMap) (cid : String),
    cid ∉ m.map Prod.fst → mapLookup m cid = none := by
  intro m
  induction m with
  | nil =>
    intro cid _
    rfl
  | cons kv rest ih =>
    intro cid h
    simp only [List.map_cons, List.mem_cons, not_or] at h
    rw [mapLookup, if_neg (fun hk => h.1 hk.symm)]
    exact ih cid h.2

/-- Deleting a present key shrinks the map by exactly one entry. -/
theorem mapDelete_length : ∀ (m : PendingMap) (cid : String) (e : PendingEntry),
    mapLookup m cid = some e → (mapDelete m cid).length + 1 = m.length := by
  intro m
  induction m with
  | nil =>
    intro cid e h
    simp [mapLookup] at h
  | cons kv rest ih =>
    intro cid e h
    by_cases hk : kv.1 = cid
    · simp [mapDelete, hk]
    · rw [mapLookup, if_neg hk] at h
      rw [mapDelete, if_neg hk]
      simp only [List.length_cons, ← ih cid e h]

/-- With unique keys (a Python dict), a deleted key is gone. -/
theorem mapLookup_delete_self : ∀ (m : PendingMap) (cid : String),
    (m.map Prod.fst).Nodup → mapLookup (mapDelete m cid) cid = none := by
  intro m
  induction m with
  | nil =>
    intro cid _
    rfl
  | cons kv rest ih =>
    intro cid hnd
    simp only [List.map_cons, List.nodup_cons] at hnd
    by_cases hk : kv.1 = cid
    · rw [mapDelete, if_pos hk]
      exact mapLookup_eq_none_of_not_mem rest cid (hk ▸ hnd.1)
    · rw [mapDelete, if_neg hk, mapLookup, if_neg hk]
      exact ih cid hnd.2

/-- Once the id is absent, every further resolution call answers
"Crisis expired." and leaves the map unchanged, whatever the digits. -/
theorem processMany_absent : ∀ (ds : List (Option String)) (m : PendingMap)
    (cid : String) (now : Nat), mapLookup m cid = none →
    processMany m cid ds now = (ds.map (fun _ => expiredOut), m) := by
  intro ds
  induction ds with
  | nil =>
    intro m cid now _
    rfl
  | cons d ds ih =>
    intro m cid now h
    simp only [processMany, processApproval, h, List.map_cons]
    rw [ih m cid now h]

/-- No call answered "Crisis expired." dispatched anything. -/
theorem filter_replicate_expired : ∀ n : Nat,
    (List.replicate n expiredOut).filter (fun o => o.dispatched.isSome) = [] := by
  intro n
  induction n with
  | zero => rfl
  | succ k ih => simp [List.replicate_succ, List.filter_cons, expiredOut, ih]

/-- C1: the `/process` handler holds `pending_decisions_lock` across the
whole existence-check → dispatch → delete sequence, so N concurrent
resolution calls for one id serialise into N atomic steps in some order.
For every such serialisation of N = n+1 calls with the approval digit on an
id present in the map (keys unique, as in a dict): the first call dispatches
(`approvedOut`, which invokes `execute_dispatch` on the stored decision
output) and every other call observes the entry as absent and answers
"Crisis expired."; exactly one output carries a dispatch; and the map
shrinks by exactly one entry across all N calls. -/
theorem exactly_once_dispatch (m : PendingMap) (cid : String)
    (e : PendingEntry) (n : Nat) (now : Nat)
    (hnd : (m.map Prod.fst).Nodup) (hl : mapLookup m cid = some e) :
    processMany m cid (List.replicate (n + 1) (some "6")) now
        = (approvedOut e :: List.replicate n expiredOut, mapDelete m cid)
    ∧ ((processMany m cid (List.replicate (n + 1) (some "6")) now).1.filter
          (fun o => o.dispatched.isSome)).length = 1
    ∧ (mapDelete m cid).length + 1 = m.length := by
  have habs : mapLookup (mapDelete m cid) cid = none :=
    mapLookup_delete_self m cid hnd
  have hmain : processMany m cid (List.replicate (n + 1) (some "6")) now
      = (approvedOut e :: List.replicate n expiredOut, mapDelete m cid) := by
    rw [List.replicate_succ]
    simp only [processMany, processApproval, hl, if_true]
    rw [processMany_absent _ _ _ _ habs]
    simp [List.map_replicate]
  refine ⟨hmain, ?_, mapDelete_length m cid e hl⟩
  rw [hmain]
  simp [List.filter_cons, approvedOut, filter_replicate_expired]

/-- C1 witness: three concurrent approval calls on id "abc" in a two-entry
map — one dispatch, two "Crisis expired.", size down by one. -/
theorem exactly_once_dispatch_witness :
    processMany sampleMap "abc" (List.replicate 3 (some "6")) 0
        = (approvedOut sampleEntry :: List.replicate 2 expiredOut,
           mapDelete sampleMap "abc")
    ∧ ((processMany sampleMap "abc" (List.replicate 3 (some "6")) 0).1.filter
          (fun o => o.dispatched.isSome)).length = 1
    ∧ (mapDelete sampleMap "abc").length + 1 = sampleMap.length :=
  exactly_once_dispatch sampleMap "abc" sampleEntry 2 0 (by decide) (by decide)

/-! ## C2 — no timeout is enforced at resolution -/

/-- C2 counterexample: an entry created at clock 0 and resolved at clock
100000 — an elapsed time far beyond the claimed 900-second default timeout —
with the valid approval digit is dispatched and answered "Approved…", not
deleted-as-Expired: the handler never reads the stored timestamp. -/
theorem timeout_not_enforced_cex :
    900 < 100000 - sampleEntry.timestamp
    ∧ processApproval sampleMap "abc" (some "6") 100000
        = (approvedOut sampleEntry, mapDelete sampleMap "abc")
    ∧ (approvedOut sampleEntry).dispatched
        = some { execution_status := "COMPLETED",
                 dispatch_log := [dispatchEntryOf (allocDecision fireFive "Fire")] } := by
  refine ⟨by decide, by decide, by decide⟩

/-- C2 amended (the true residue of the claim): the resolution entrypoint
performs no elapsed-time check — its result is the same at every clock
value, so a pending entry never expires by time; an entry present in the map
resolved with the valid digit "6" is dispatched (before or after any nominal
timeout alike); only an id absent from the map receives the
"Crisis expired." not-found response, with the map unchanged. -/
theorem resolution_time_independent :
    (∀ (m : PendingMap) (cid : String) (digit : Option String) (now now' : Nat),
       processApproval m cid digit now = processApproval m cid digit now')
    ∧ (∀ (m : PendingMap) (cid : String) (e : PendingEntry) (now : Nat),
       mapLookup m cid = some e →
       processApproval m cid (some "6") now
         = (approvedOut e, mapDelete m cid))
    ∧ (∀ (m : PendingMap) (cid : String) (now : Nat) (digit : Option String),
       mapLookup m cid = none →
       processApproval m cid digit now = (expiredOut, m)) := by
  refine ⟨fun m cid digit now now' => rfl, ?_, ?_⟩
  · intro m cid e now hl
    simp [processApproval, hl]
  · intro m cid now digit hl
    simp [processApproval, hl]

/-- C2 witness: the amended theorem at concrete clocks 5 and 999999, on a
present id and on a deleted id. -/
theorem resolution_time_independent_witness :
    processApproval sampleMap "abc" (some "6") 5
        = processApproval sampleMap "abc" (some "6") 999999
    ∧ processApproval sampleMap "abc" (some "6") 999999
        = (approvedOut sampleEntry, mapDelete sampleMap "abc")
    ∧ processApproval (mapDelete sampleMap "abc") "abc" (some "6") 7
        = (expiredOut, mapDelete sampleMap "abc") :=
  ⟨resolution_time_independent.1 sampleMap "abc" (some "6") 5 999999,
   resolution_time_independent.2.1 sampleMap "abc" sampleEntry 999999 (by decide),
   resolution_time_independent.2.2 (mapDelete sampleMap "abc") "abc" 7 (some "6")
     (by decide)⟩

/-! ## C9 — the audit trail -/

/-- C9 counterexample: the snapshot's records share payload addresses with
the internal log (a dict `.copy()` is shallow), so writing into the payload
reached through the snapshot's first record changes what the internal audit
log's history says — the "including event payloads" part of the claim
fails. -/
theorem audit_snapshot_shallow_cex :
    (AuditModel.get_audit_log sampleAuditState).map AuditModel.EventRec.data
        = sampleAuditState.log.map AuditModel.EventRec.data
    ∧ AuditModel.renderLog
        (AuditModel.writePayload sampleAuditState
          ((AuditModel.get_audit_log sampleAuditState).headD
              { timestamp := "", event_type := "", data := 0 }).data
          "value" "2")
        ≠ AuditModel.renderLog sampleAuditState := by
  decide

/-- C9 amended: the audit log is append-only at the record level —
`record_event` appends exactly one record, any sequence of operations
(recordings and payload writes) extends the log without deleting or altering
its existing records, so the length is monotonically non-decreasing — and
`get_audit_log` returns a fresh list of fresh top-level record copies (equal
field-for-field, so mutating the returned list or a copy's top-level fields
cannot touch the log), but each copy's `data` field is the same payload
address as the internal record's: payload dicts are shared, not copied. -/
theorem audit_append_only :
    (∀ (st : AuditModel.AuditState) (ts ty : String) (a : Nat),
       (AuditModel.record_event st ts ty a).log.length = st.log.length + 1)
    ∧ (∀ (st : AuditModel.AuditState) (ops : List AuditModel.Op),
       ∃ tail, (AuditModel.applyOps st ops).log = st.log ++ tail)
    ∧ (∀ (st : AuditModel.AuditState) (ops : List AuditModel.Op),
       st.log.length ≤ (AuditModel.applyOps st ops).log.length)
    ∧ (∀ st : AuditModel.AuditState,
       AuditModel.get_audit_log st = st.log
       ∧ (AuditModel.get_audit_log st).map AuditModel.EventRec.data
           = st.log.map AuditModel.EventRec.data) := by
  have hext : ∀ (ops : List AuditModel.Op) (st : AuditModel.AuditState),
      ∃ tail, (AuditModel.applyOps st ops).log = st.log ++ tail := by
    intro ops
    induction ops with
    | nil =>
      intro st
      exact ⟨[], by simp [AuditModel.applyOps]⟩
    | cons op ops ih =>
      intro st
      have hone : ∃ extra, (AuditModel.applyOp st op).log = st.log ++ extra := by
        cases op with
        | recEv ts ty a =>
          exact ⟨[{ timestamp := ts, event_type := ty, data := a }], rfl⟩
        | write a k v =>
          exact ⟨[], by simp [AuditModel.applyOp, AuditModel.writePayload]⟩
      obtain ⟨extra, h1⟩ := hone
      obtain ⟨tail, h2⟩ := ih (AuditModel.applyOp st op)
      refine ⟨extra ++ tail, ?_⟩
      rw [show AuditModel.applyOps st (op :: ops)
          = AuditModel.applyOps (AuditModel.applyOp st op) ops from rfl, h2, h1,
        List.append_assoc]
  refine ⟨fun st ts ty a => by simp [AuditModel.record_event], fun st ops => hext ops st, ?_, ?_⟩
  · intro st ops
    obtain ⟨tail, h⟩ := hext ops st
    rw [h, List.length_append]
    omega
  · intro st
    have h1 : AuditModel.get_audit_log st = st.log := by
      simp [AuditModel.get_audit_log]
    exact ⟨h1, by rw [h1]⟩
